import Mathlib

/-!
Shallow embedding of the two Google Apps Script pipelines of the
todoist_utilities repository (src/Todoist2PDF/Code.js):

* the Report Pipeline (`createTodoistReport`, `deleteYesterdaysReport`,
  `getUncompletedTasksByProject`, `createAndPopulateSheet`,
  `exportSheetAsPdf`), and
* the Sync Pipeline (`syncGoogleTasksToTodoist`, `getTaskListIdByName_`,
  `createTodoistTask_`).

External services (Todoist REST API, Google Drive, Google Tasks) are
modelled by environment records supplying the data the script would fetch
and the outcomes of the write calls it would issue.  JavaScript string
truthiness (the empty string is falsy) is modelled explicitly wherever the
source relies on it.
-/

/-! ## Report Pipeline: data model -/

/-- A Todoist project as returned by the projects endpoint: id and name. -/
structure Project where
  id : String
  name : String
deriving DecidableEq, Repr

/-- A Todoist task as consumed by the Report Pipeline: content, project id
and the optional human readable due string (`task.due.string`, absent when
`task.due` is absent). -/
structure RTask where
  content : String
  project_id : String
  due : Option String
deriving DecidableEq, Repr

/-- A row of the grouping result: `{content, due}` as built at
Code.js lines 132-135. -/
structure TaskRow where
  content : String
  due : String
deriving DecidableEq, Repr

/-- The due field of a row: `task.due ? task.due.string : 'No due date'`. -/
def dueString (t : RTask) : String :=
  match t.due with
  | some s => s
  | none => "No due date"

/-- The row pushed for a task (Code.js lines 132-135). -/
def rowOfTask (t : RTask) : TaskRow :=
  { content := t.content, due := dueString t }

/-- Resolution of a project id through the `projectMap` built at
Code.js lines 111-114 followed by `projectMap[task.project_id] || 'Inbox'`
(line 128).  Assignments overwrite, so a duplicated id keeps the last
name; a missing entry, and also an entry whose name is the empty string
(falsy in JavaScript), yield `"Inbox"`. -/
def resolveProjectName (projects : List Project) (pid : String) : String :=
  match projects.reverse.find? (fun p => p.id == pid) with
  | some p => if p.name = "" then "Inbox" else p.name
  | none => "Inbox"

/-- One step of the grouping loop: append a row to the entry of `k`,
creating the entry at the end on first encounter (Code.js lines 129-135;
JavaScript object string keys iterate in insertion order). -/
def pushRow : List (String × List TaskRow) → String → TaskRow → List (String × List TaskRow)
  | [], k, r => [(k, [r])]
  | (k0, rs) :: rest, k, r =>
    if k0 = k then (k0, rs ++ [r]) :: rest
    else (k0, rs) :: pushRow rest k r

/-- The grouping of `getUncompletedTasksByProject` (Code.js lines 122-138),
as an insertion ordered association list from project name to rows. -/
def getUncompletedTasksByProject (projects : List Project) (tasks : List RTask) :
    List (String × List TaskRow) :=
  tasks.foldl
    (fun acc t => pushRow acc (resolveProjectName projects t.project_id) (rowOfTask t)) []

/-- Lookup of a key in the grouping result; the empty list when absent. -/
def lookupRows : List (String × List TaskRow) → String → List TaskRow
  | [], _ => []
  | (k0, rs) :: rest, k => if k0 = k then rs else lookupRows rest k

/-- Keys of the grouping result, in order. -/
def keysOf (m : List (String × List TaskRow)) : List String :=
  m.map Prod.fst

/-! ## Report Pipeline: controller -/

/-- A calendar date as read from the host clock; `month` is already the
calendar month (the source applies `getMonth() + 1`). -/
structure SDate where
  month : Nat
  day : Nat
  year : Nat
deriving DecidableEq, Repr

/-- Date formatting shared by `deleteYesterdaysReport` (Code.js line 73)
and `createAndPopulateSheet` (line 148): month, day and year joined by
dashes, with no zero padding. -/
def formatDate (d : SDate) : String :=
  toString d.month ++ "-" ++ toString d.day ++ "-" ++ toString d.year

/-- The spreadsheet name `Todoist Report - {M}-{D}-{YYYY}` (line 149). -/
def reportName (d : SDate) : String :=
  "Todoist Report - " ++ formatDate d

/-- The PDF file name: the report name with `.pdf` appended
(lines 74 and 205). -/
def reportPdfName (d : SDate) : String :=
  reportName d ++ ".pdf"

/-- Outcome of the cleanup step of `deleteYesterdaysReport`. -/
inductive CleanupResult where
  | trashed
  | missing
  | failed
deriving DecidableEq, Repr

/-- Observable actions of a Report Pipeline run. -/
inductive RAction where
  | cleanup (fileName : String) (result : CleanupResult)
  | createSheet (name : String)
  | createPdf (fileName : String)
  | trashTemp
deriving DecidableEq, Repr

/-- Environment of a Report Pipeline run: configuration, the host clock
dates, the Drive state and the data the two fetches would return. -/
structure ReportEnv where
  tokenSet : Bool
  folderSet : Bool
  today : SDate
  yesterday : SDate
  yesterdayExists : Bool
  cleanupFails : Bool
  projects : List Project
  tasks : List RTask
  exportFails : Bool

/-- The cleanup step (Code.js lines 70-89): derives the file name from
the date of the previous day, trashes the file when present, logs when
absent, and catches any failure so that nothing propagates. -/
def deleteYesterdaysReport (env : ReportEnv) : RAction :=
  RAction.cleanup (reportPdfName env.yesterday)
    (if env.cleanupFails then CleanupResult.failed
     else if env.yesterdayExists then CleanupResult.trashed
     else CleanupResult.missing)

/-- The controller `createTodoistReport` (Code.js lines 24-64) as the list
of observable actions: abort on missing configuration; cleanup first; abort
after cleanup when the grouping has no keys; otherwise create the sheet,
and unless the export fails, create the PDF and trash the temporary
spreadsheet. -/
def createTodoistReport (env : ReportEnv) : List RAction :=
  if env.tokenSet && env.folderSet then
    deleteYesterdaysReport env ::
      (if getUncompletedTasksByProject env.projects env.tasks = [] then []
       else
         RAction.createSheet (reportName env.today) ::
           (if env.exportFails then []
            else [RAction.createPdf (reportName env.today ++ ".pdf"), RAction.trashTemp]))
  else []

/-- An action that creates a document or an output file. -/
def createsOutput : RAction → Bool
  | RAction.createSheet _ => true
  | RAction.createPdf _ => true
  | _ => false

/-! ## Sync Pipeline: data model -/

/-- A typed link of a Google Task (`{type, link}`). -/
structure GLink where
  type : String
  link : String
deriving DecidableEq, Repr

/-- A Google Task as consumed by the Sync Pipeline.  Optional fields model
absent JavaScript properties; the source also treats an empty title and an
empty due string as absent through truthiness checks. -/
structure GTask where
  id : String
  title : Option String
  notes : Option String
  links : Option (List GLink)
  due : Option String
deriving DecidableEq, Repr

/-- The payload sent to the Todoist task creation endpoint
(Code.js lines 311-319). -/
structure TodoistPayload where
  content : String
  description : String
  due_date : Option String
deriving DecidableEq, Repr

/-- The character set removed by JavaScript `String.prototype.trim`
(ECMA-262 WhiteSpace and LineTerminator): tab, line feed, vertical tab,
form feed, carriage return, line separator, paragraph separator, zero
width no-break space, and the Unicode space separators (space, no-break
space, ogham space mark, the en quad through hair space range, narrow
no-break space, medium mathematical space, ideographic space). -/
def jsWhitespace (c : Char) : Bool :=
  c.val == 0x9 || c.val == 0xA || c.val == 0xB || c.val == 0xC || c.val == 0xD ||
  c.val == 0x20 || c.val == 0xA0 || c.val == 0x1680 ||
  c.val == 0x2000 || c.val == 0x2001 || c.val == 0x2002 || c.val == 0x2003 ||
  c.val == 0x2004 || c.val == 0x2005 || c.val == 0x2006 || c.val == 0x2007 ||
  c.val == 0x2008 || c.val == 0x2009 || c.val == 0x200A ||
  c.val == 0x2028 || c.val == 0x2029 || c.val == 0x202F || c.val == 0x205F ||
  c.val == 0x3000 || c.val == 0xFEFF

/-- JavaScript `String.prototype.trim`: remove leading and trailing
characters of the ECMA-262 whitespace set. -/
def jsTrim (s : String) : String :=
  ⟨((s.data.dropWhile jsWhitespace).reverse.dropWhile jsWhitespace).reverse⟩

/-- The notes part of the description: `task.notes || ''`
(Code.js line 294). -/
def notesOf (t : GTask) : String :=
  match t.notes with
  | some s => s
  | none => ""

/-- The description before trimming (Code.js lines 294-308): the notes,
then, when a link of type `email` exists (first match wins), the separator
when the notes are non-empty (truthy), and the `Linked Email:` line. -/
def buildDescription (t : GTask) : String :=
  match t.links with
  | none => notesOf t
  | some ls =>
    match ls.find? (fun l => l.type == "email") with
    | none => notesOf t
    | some l =>
      (if notesOf t = "" then "" else notesOf t ++ "\n\n---\n") ++
        ("Linked Email: " ++ l.link)

/-- The title after the truthiness check `!task.title` (Code.js line 287):
`none` when the title is absent or the empty string. -/
def titleValue (t : GTask) : Option String :=
  match t.title with
  | none => none
  | some s => if s = "" then none else some s

/-- JavaScript `substring(0, 10)` on the due value (Code.js line 318). -/
def jsSubstring10 (s : String) : String :=
  ⟨s.data.take 10⟩

/-- The per task transform of the Sync Pipeline (Code.js lines 285-319):
skip when the title is falsy; otherwise build the payload from the title,
the trimmed description, and, when the due value is truthy, its first ten
characters. -/
def transform (t : GTask) : Option TodoistPayload :=
  match titleValue t with
  | none => none
  | some title =>
    some
      { content := title
      , description := jsTrim (buildDescription t)
      , due_date :=
          match t.due with
          | none => none
          | some d => if d = "" then none else some (jsSubstring10 d) }

/-- A Google Tasks list descriptor as returned by `Tasklists.list`. -/
structure GTaskList where
  id : String
  title : String
deriving DecidableEq, Repr

/-- Result of the `Tasks.Tasklists.list()` call: it throws, or returns an
object whose `items` property may be absent. -/
inductive ListingResult where
  | threw
  | ok (items : Option (List GTaskList))

/-- Environment of a Sync Pipeline run: configuration, the task list
listing outcome, the tasks of the configured list, the HTTP outcome of
each creation call (`none` models a thrown fetch, `some code` the response
code), and whether each deletion call succeeds. -/
structure SyncEnv where
  tokenSet : Bool
  listNameSet : Bool
  listName : String
  listing : ListingResult
  sourceTasks : List GTask
  fetchResult : TodoistPayload → Option Nat
  deleteOk : String → Bool

/-- The helper `createTodoistTask_` (Code.js lines 375-405): returns a
non-null response exactly when the fetch did not throw and the response
code is 200. -/
def createTodoistTask_ (env : SyncEnv) (p : TodoistPayload) : Bool :=
  match env.fetchResult p with
  | none => false
  | some code => code == 200

/-- Observable external calls of a Sync Pipeline run, with their
outcomes. -/
inductive Event where
  | create (p : TodoistPayload) (ok : Bool)
  | deleteCall (id : String) (ok : Bool)
deriving DecidableEq, Repr

/-- Processing of a single task (Code.js lines 285-336): skipped tasks
issue no call; otherwise the creation call is issued, and the deletion
call is issued exactly when the creation reported success.  The second
component records whether the task was actually removed from the source
list (creation succeeded and the deletion call did not throw). -/
def processTask (env : SyncEnv) (t : GTask) : List Event × Bool :=
  match transform t with
  | none => ([], false)
  | some p =>
    if createTodoistTask_ env p then
      ([Event.create p true, Event.deleteCall t.id (env.deleteOk t.id)], env.deleteOk t.id)
    else
      ([Event.create p false], false)

/-- Events of the `forEach` loop over the fetched tasks, in order. -/
def syncEvents (env : SyncEnv) : List GTask → List Event
  | [] => []
  | t :: ts => (processTask env t).1 ++ syncEvents env ts

/-- The source list after a run: exactly the tasks that were not removed. -/
def syncRemaining (env : SyncEnv) (tasks : List GTask) : List GTask :=
  tasks.filter (fun t => !(processTask env t).2)

/-- The helper `getTaskListIdByName_` (Code.js lines 350-365): `null` when
the listing throws (the catch swallows the exception), when `items` is
absent, or when no list bears the given title; otherwise the id of the
first list with that title. -/
def getTaskListIdByName_ (env : SyncEnv) (name : String) : Option String :=
  match env.listing with
  | ListingResult.threw => none
  | ListingResult.ok none => none
  | ListingResult.ok (some items) =>
    match items.find? (fun l => l.title == name) with
    | some l => some l.id
    | none => none

/-- The entry point `syncGoogleTasksToTodoist` (Code.js lines 251-342) as
the list of external calls it issues: nothing on missing configuration or
when the list lookup returns null; otherwise the events of the loop. -/
def syncGoogleTasksToTodoist (env : SyncEnv) : List Event :=
  if env.tokenSet && env.listNameSet then
    match getTaskListIdByName_ env env.listName with
    | none => []
    | some _ => syncEvents env env.sourceTasks
  else []

/-! ## Concrete sample values -/

/-- A minimal Google Task with a valid title and nothing else. -/
def wTask1 : GTask :=
  { id := "g1", title := some "A", notes := none, links := none, due := none }

/-- The payload the transform produces for `wTask1`. -/
def wPayload1 : TodoistPayload :=
  { content := "A", description := "", due_date := none }

/-- A Google Task without a title. -/
def wTaskUntitled : GTask :=
  { id := "g2", title := some "", notes := some "n", links := none, due := none }

/-- The scenario task of the specification: title, notes, due timestamp
and one email link. -/
def wTask3 : GTask :=
  { id := "g3", title := some "Call Bob", notes := some "re: contract"
  , links := some [{ type := "email", link := "https://mail.example/x" }]
  , due := some "2024-05-01T00:00:00Z" }

/-- The payload the transform produces for `wTask3`. -/
def wPayload3 : TodoistPayload :=
  { content := "Call Bob"
  , description := "re: contract\n\n---\nLinked Email: https://mail.example/x"
  , due_date := some "2024-05-01" }

/-- A sync environment in which every creation call returns HTTP 403. -/
def wEnvFail : SyncEnv :=
  { tokenSet := true, listNameSet := true, listName := "L"
  , listing := ListingResult.ok (some [{ id := "id1", title := "L" }])
  , sourceTasks := [wTask1]
  , fetchResult := fun _ => some 403
  , deleteOk := fun _ => true }

/-- A sync environment in which every creation call returns HTTP 200 and
every deletion call fails. -/
def wEnvDelFail : SyncEnv :=
  { tokenSet := true, listNameSet := true, listName := "L"
  , listing := ListingResult.ok (some [{ id := "id1", title := "L" }])
  , sourceTasks := [wTask1]
  , fetchResult := fun _ => some 200
  , deleteOk := fun _ => false }

/-- A sync environment in which the task list listing call throws. -/
def wEnvThrew : SyncEnv :=
  { tokenSet := true, listNameSet := true, listName := "L"
  , listing := ListingResult.threw
  , sourceTasks := [wTask1]
  , fetchResult := fun _ => some 200
  , deleteOk := fun _ => true }

/-- A fully configured report environment with one task. -/
def wREnv : ReportEnv :=
  { tokenSet := true, folderSet := true
  , today := { month := 10, day := 11, year := 2026 }
  , yesterday := { month := 10, day := 10, year := 2026 }
  , yesterdayExists := false, cleanupFails := false
  , projects := [{ id := "p1", name := "Errands" }]
  , tasks := [{ content := "Buy milk", project_id := "p1", due := none }]
  , exportFails := false }

/-- A fully configured report environment with no tasks. -/
def wREnvEmpty : ReportEnv :=
  { tokenSet := true, folderSet := true
  , today := { month := 10, day := 11, year := 2026 }
  , yesterday := { month := 10, day := 10, year := 2026 }
  , yesterdayExists := true, cleanupFails := false
  , projects := [{ id := "p1", name := "Errands" }]
  , tasks := [], exportFails := false }

/-! ## Grouping lemmas -/

theorem pushRow_ne_nil (m : List (String × List TaskRow)) (k : String) (r : TaskRow) :
    pushRow m k r ≠ [] := by
  match m with
  | [] => simp [pushRow]
  | (k0, rs) :: rest =>
    simp only [pushRow]
    split <;> simp

theorem lookupRows_pushRow (m : List (String × List TaskRow)) (k k' : String) (r : TaskRow) :
    lookupRows (pushRow m k r) k' =
      if k = k' then lookupRows m k' ++ [r] else lookupRows m k' := by
  induction m with
  | nil =>
    by_cases h : k = k' <;> simp [pushRow, lookupRows, h]
  | cons e rest ih =>
    obtain ⟨k0, rs⟩ := e
    by_cases h0 : k0 = k
    · subst h0
      by_cases h1 : k0 = k' <;> simp [pushRow, lookupRows, h1]
    · by_cases h1 : k0 = k'
      · subst h1
        have hkk : k ≠ k0 := fun h => h0 h.symm
        simp [pushRow, lookupRows, h0, hkk]
      · simp [pushRow, lookupRows, h0, h1, ih]

theorem keysOf_pushRow (m : List (String × List TaskRow)) (k : String) (r : TaskRow) :
    keysOf (pushRow m k r) = if k ∈ keysOf m then keysOf m else keysOf m ++ [k] := by
  induction m with
  | nil => simp [pushRow, keysOf]
  | cons e rest ih =>
    obtain ⟨k0, rs⟩ := e
    by_cases h0 : k0 = k
    · subst h0
      simp [pushRow, keysOf]
    · have hk : k ≠ k0 := fun h => h0 h.symm
      simp only [keysOf] at ih ⊢
      simp only [pushRow, if_neg h0, List.map_cons]
      rw [ih]
      by_cases hmem : k ∈ rest.map Prod.fst
      · simp [List.mem_cons, hk, hmem]
      · simp [List.mem_cons, hk, hmem]

theorem keysOf_pushRow_nodup (m : List (String × List TaskRow)) (k : String) (r : TaskRow)
    (h : (keysOf m).Nodup) : (keysOf (pushRow m k r)).Nodup := by
  rw [keysOf_pushRow]
  by_cases hmem : k ∈ keysOf m
  · simpa [hmem] using h
  · simp only [hmem, if_false]
    exact h.append (List.nodup_singleton k) (by simpa using hmem)

theorem group_foldl_lookup (projects : List Project) (tasks : List RTask)
    (acc : List (String × List TaskRow)) (k : String) :
    lookupRows
        (tasks.foldl
          (fun acc t => pushRow acc (resolveProjectName projects t.project_id) (rowOfTask t))
          acc) k =
      lookupRows acc k ++
        (tasks.filter (fun t => resolveProjectName projects t.project_id == k)).map rowOfTask := by
  induction tasks generalizing acc with
  | nil => simp
  | cons t ts ih =>
    rw [List.foldl_cons, ih, lookupRows_pushRow]
    by_cases h : resolveProjectName projects t.project_id = k
    · simp [List.filter_cons, h]
    · simp [List.filter_cons, h]

theorem group_foldl_keys_nodup (projects : List Project) (tasks : List RTask)
    (acc : List (String × List TaskRow)) (h : (keysOf acc).Nodup) :
    (keysOf
        (tasks.foldl
          (fun acc t => pushRow acc (resolveProjectName projects t.project_id) (rowOfTask t))
          acc)).Nodup := by
  induction tasks generalizing acc with
  | nil => exact h
  | cons t ts ih =>
    rw [List.foldl_cons]
    exact ih _ (keysOf_pushRow_nodup _ _ _ h)

theorem group_lookup (projects : List Project) (tasks : List RTask) (k : String) :
    lookupRows (getUncompletedTasksByProject projects tasks) k =
      (tasks.filter (fun t => resolveProjectName projects t.project_id == k)).map rowOfTask := by
  have := group_foldl_lookup projects tasks [] k
  simpa [getUncompletedTasksByProject, lookupRows] using this

theorem group_keys_nodup (projects : List Project) (tasks : List RTask) :
    (keysOf (getUncompletedTasksByProject projects tasks)).Nodup := by
  exact group_foldl_keys_nodup projects tasks [] (by simp [keysOf])

theorem group_mem_row (projects : List Project) (tasks : List RTask) (t : RTask)
    (ht : t ∈ tasks) :
    rowOfTask t ∈
      lookupRows (getUncompletedTasksByProject projects tasks)
        (resolveProjectName projects t.project_id) := by
  rw [group_lookup]
  exact List.mem_map_of_mem rowOfTask (List.mem_filter.mpr ⟨ht, by simp⟩)

theorem group_foldl_ne_nil (projects : List Project) (tasks : List RTask)
    (acc : List (String × List TaskRow)) (h : acc ≠ []) :
    tasks.foldl
        (fun acc t => pushRow acc (resolveProjectName projects t.project_id) (rowOfTask t))
        acc ≠ [] := by
  induction tasks generalizing acc with
  | nil => exact h
  | cons t ts ih =>
    rw [List.foldl_cons]
    exact ih _ (pushRow_ne_nil _ _ _)

theorem group_eq_nil_iff (projects : List Project) (tasks : List RTask) :
    getUncompletedTasksByProject projects tasks = [] ↔ tasks = [] := by
  constructor
  · intro h
    cases tasks with
    | nil => rfl
    | cons t ts =>
      exfalso
      apply group_foldl_ne_nil projects ts (pushRow [] (resolveProjectName projects t.project_id) (rowOfTask t)) (pushRow_ne_nil _ _ _)
      simpa [getUncompletedTasksByProject, List.foldl_cons] using h
  · intro h
    subst h
    rfl

/-! ## Trim lemmas -/

theorem dropWhile_append_left (l1 l2 : List Char)
    (h : l1.any (fun c => !jsWhitespace c) = true) :
    (l1 ++ l2).dropWhile jsWhitespace = l1.dropWhile jsWhitespace ++ l2 := by
  induction l1 with
  | nil => simp at h
  | cons a t ih =>
    simp only [List.any_cons, Bool.or_eq_true] at h
    by_cases ha : jsWhitespace a
    · have ht : t.any (fun c => !jsWhitespace c) = true := by
        rcases h with h | h
        · simp [ha] at h
        · exact h
      simp [List.cons_append, List.dropWhile_cons, ha, ih ht]
    · simp [List.dropWhile_cons, ha]

theorem trimRight_of_last_nonWs (Y : List Char) (c : Char) (hc : jsWhitespace c = false) :
    ((Y ++ [c]).reverse.dropWhile jsWhitespace).reverse = Y ++ [c] := by
  simp [List.reverse_append, List.dropWhile_cons, hc]

theorem jsTrim_good (n m : List Char) (c : Char)
    (hn : n.any (fun x => !jsWhitespace x) = true) (hc : jsWhitespace c = false) :
    jsTrim ⟨n ++ (m ++ [c])⟩ = ⟨n.dropWhile jsWhitespace ++ (m ++ [c])⟩ := by
  unfold jsTrim
  apply congrArg String.mk
  rw [show (String.mk (n ++ (m ++ [c]))).data = n ++ (m ++ [c]) from rfl]
  rw [dropWhile_append_left n (m ++ [c]) hn]
  rw [show n.dropWhile jsWhitespace ++ (m ++ [c]) =
        (n.dropWhile jsWhitespace ++ m) ++ [c] by simp [List.append_assoc]]
  exact trimRight_of_last_nonWs _ c hc

/-! ## Sync loop lemmas -/

theorem syncEvents_append (env : SyncEnv) (a b : List GTask) :
    syncEvents env (a ++ b) = syncEvents env a ++ syncEvents env b := by
  induction a with
  | nil => simp [syncEvents]
  | cons t ts ih => simp [syncEvents, ih]

theorem createTodoistTask_eq_true_iff (env : SyncEnv) (p : TodoistPayload) :
    createTodoistTask_ env p = true ↔ env.fetchResult p = some 200 := by
  unfold createTodoistTask_
  cases h : env.fetchResult p with
  | none => simp
  | some code => simp [beq_iff_eq]

theorem mem_syncRemaining (env : SyncEnv) (tasks : List GTask) (t : GTask)
    (ht : t ∈ tasks) (h : (processTask env t).2 = false) :
    t ∈ syncRemaining env tasks := by
  exact List.mem_filter.mpr ⟨ht, by simp [h]⟩

theorem create_mem_syncEvents (env : SyncEnv) (tasks : List GTask) (t : GTask)
    (ht : t ∈ tasks) (e : Event) (he : e ∈ (processTask env t).1) :
    e ∈ syncEvents env tasks := by
  induction tasks with
  | nil => cases ht
  | cons u us ih =>
    rcases List.mem_cons.mp ht with h | h
    · subst h
      exact List.mem_append.mpr (Or.inl he)
    · exact List.mem_append.mpr (Or.inr (ih h))

theorem jsTrim_linked (url : String) (u : List Char) (c : Char)
    (hu : url.data = u ++ [c]) (hc : jsWhitespace c = false) :
    jsTrim ("Linked Email: " ++ url) = "Linked Email: " ++ url := by
  have h1 : ("Linked Email: " ++ url : String) =
      ⟨("Linked Email: " : String).data ++ (u ++ [c])⟩ := by
    show (⟨("Linked Email: " : String).data ++ url.data⟩ : String) = _
    rw [hu]
  rw [h1, jsTrim_good _ _ _ (by decide) hc]
  rw [show ("Linked Email: " : String).data.dropWhile jsWhitespace =
        ("Linked Email: " : String).data from by decide]

theorem jsTrim_notes_linked (notes url : String) (u : List Char) (c : Char)
    (hu : url.data = u ++ [c]) (hc : jsWhitespace c = false)
    (hn : notes.data.any (fun x => !jsWhitespace x) = true) :
    jsTrim ((notes ++ "\n\n---\n") ++ ("Linked Email: " ++ url)) =
      (⟨notes.data.dropWhile jsWhitespace⟩ : String) ++
        ("\n\n---\n" ++ ("Linked Email: " ++ url)) := by
  have h1 : ((notes ++ "\n\n---\n") ++ ("Linked Email: " ++ url) : String) =
      ⟨notes.data ++
        ((("\n\n---\n" : String).data ++ (("Linked Email: " : String).data ++ u)) ++ [c])⟩ := by
    show (⟨(notes.data ++ ("\n\n---\n" : String).data) ++
            (("Linked Email: " : String).data ++ url.data)⟩ : String) = _
    rw [hu]
    apply congrArg
    simp [List.append_assoc]
  rw [h1, jsTrim_good _ _ _ hn hc]
  show _ = (⟨notes.data.dropWhile jsWhitespace ++
      (("\n\n---\n" : String).data ++ (("Linked Email: " : String).data ++ url.data))⟩ : String)
  rw [hu]
  apply congrArg
  simp [List.append_assoc]

theorem create_event_of_transform (env : SyncEnv) (u : GTask) (q : TodoistPayload)
    (hq : transform u = some q) :
    Event.create q (createTodoistTask_ env q) ∈ (processTask env u).1 := by
  unfold processTask
  rw [hq]
  by_cases h : createTodoistTask_ env q = true <;> simp [h]

/-! ## Claim theorems -/

/-- C2: for every non-empty input task list, the Report Pipeline grouping
places each task in exactly one project group (group keys are distinct and
the rows under each key are exactly the rows of the tasks resolving to
that key, in input order), copies the content string unaltered, renders a
present due string unchanged and an absent due value as the literal
"No due date", and neither drops, sorts nor deduplicates tasks. -/
theorem report_grouping_correct (projects : List Project) (tasks : List RTask)
    (h : tasks ≠ []) :
    getUncompletedTasksByProject projects tasks ≠ [] ∧
    (keysOf (getUncompletedTasksByProject projects tasks)).Nodup ∧
    (∀ k, lookupRows (getUncompletedTasksByProject projects tasks) k =
      (tasks.filter (fun t => resolveProjectName projects t.project_id == k)).map rowOfTask) ∧
    (∀ t ∈ tasks, rowOfTask t ∈
      lookupRows (getUncompletedTasksByProject projects tasks)
        (resolveProjectName projects t.project_id)) ∧
    (∀ t : RTask, (rowOfTask t).content = t.content ∧
      (∀ s, t.due = some s → (rowOfTask t).due = s) ∧
      (t.due = none → (rowOfTask t).due = "No due date")) := by
  refine ⟨fun hnil => h ((group_eq_nil_iff projects tasks).mp hnil),
    group_keys_nodup projects tasks,
    group_lookup projects tasks,
    fun t ht => group_mem_row projects tasks t ht,
    fun t => ⟨rfl, ?_, ?_⟩⟩
  · intro s hs
    simp [rowOfTask, dueString, hs]
  · intro hs
    simp [rowOfTask, dueString, hs]

/-- C2 witness: the grouping statement holds at the scenario input of the
specification. -/
theorem report_grouping_correct_witness :
    ([({ content := "Buy milk", project_id := "p1", due := none } : RTask),
      { content := "", project_id := "p2", due := none }] ≠ ([] : List RTask)) ∧
    (getUncompletedTasksByProject [{ id := "p1", name := "Errands" }]
        [{ content := "Buy milk", project_id := "p1", due := none },
         { content := "", project_id := "p2", due := none }] ≠ [] ∧
     (keysOf (getUncompletedTasksByProject [{ id := "p1", name := "Errands" }]
        [{ content := "Buy milk", project_id := "p1", due := none },
         { content := "", project_id := "p2", due := none }])).Nodup ∧
     (∀ k, lookupRows (getUncompletedTasksByProject [{ id := "p1", name := "Errands" }]
        [{ content := "Buy milk", project_id := "p1", due := none },
         { content := "", project_id := "p2", due := none }]) k =
       (([{ content := "Buy milk", project_id := "p1", due := none },
          { content := "", project_id := "p2", due := none }] : List RTask).filter
          (fun t => resolveProjectName [{ id := "p1", name := "Errands" }] t.project_id == k)).map
         rowOfTask) ∧
     (∀ t ∈ [({ content := "Buy milk", project_id := "p1", due := none } : RTask),
             { content := "", project_id := "p2", due := none }],
       rowOfTask t ∈
         lookupRows (getUncompletedTasksByProject [{ id := "p1", name := "Errands" }]
            [{ content := "Buy milk", project_id := "p1", due := none },
             { content := "", project_id := "p2", due := none }])
           (resolveProjectName [{ id := "p1", name := "Errands" }] t.project_id)) ∧
     (∀ t : RTask, (rowOfTask t).content = t.content ∧
       (∀ s, t.due = some s → (rowOfTask t).due = s) ∧
       (t.due = none → (rowOfTask t).due = "No due date"))) :=
  ⟨by decide,
   report_grouping_correct [{ id := "p1", name := "Errands" }]
     [{ content := "Buy milk", project_id := "p1", due := none },
      { content := "", project_id := "p2", due := none }] (by decide)⟩

/-- C5: a task whose project id matches no fetched project is grouped
under the key exactly equal to "Inbox". -/
theorem unresolved_project_grouped_inbox (projects : List Project) (tasks : List RTask)
    (t : RTask) (ht : t ∈ tasks) (h : ∀ p ∈ projects, p.id ≠ t.project_id) :
    resolveProjectName projects t.project_id = "Inbox" ∧
    rowOfTask t ∈ lookupRows (getUncompletedTasksByProject projects tasks) "Inbox" := by
  have hres : resolveProjectName projects t.project_id = "Inbox" := by
    unfold resolveProjectName
    have hfind : projects.reverse.find? (fun p => p.id == t.project_id) = none := by
      apply List.find?_eq_none.mpr
      intro p hp
      simp [h p (List.mem_reverse.mp hp)]
    rw [hfind]
  exact ⟨hres, hres ▸ group_mem_row projects tasks t ht⟩

/-- C5 witness: a task with project id matching no fetched project lands
in the "Inbox" group. -/
theorem unresolved_project_grouped_inbox_witness :
    (({ content := "x", project_id := "zzz", due := none } : RTask) ∈
      [({ content := "x", project_id := "zzz", due := none } : RTask)]) ∧
    (∀ p ∈ [({ id := "p1", name := "Errands" } : Project)],
      p.id ≠ ({ content := "x", project_id := "zzz", due := none } : RTask).project_id) ∧
    (resolveProjectName [{ id := "p1", name := "Errands" }]
        ({ content := "x", project_id := "zzz", due := none } : RTask).project_id = "Inbox" ∧
     rowOfTask { content := "x", project_id := "zzz", due := none } ∈
       lookupRows (getUncompletedTasksByProject [{ id := "p1", name := "Errands" }]
         [{ content := "x", project_id := "zzz", due := none }]) "Inbox") :=
  ⟨by decide, by decide,
   unresolved_project_grouped_inbox [{ id := "p1", name := "Errands" }]
     [{ content := "x", project_id := "zzz", due := none }]
     { content := "x", project_id := "zzz", due := none } (by decide) (by decide)⟩

/-- C1: for every processed source task, the deletion call against the
source list is issued exactly when the creation call returned HTTP 200;
when creation fails or throws, the task is not removed, the loop carries
on with the other tasks, and a repeated run over the resulting unchanged
source list attempts the creation of that task again. -/
theorem sync_delete_iff_created (env : SyncEnv) (tasks : List GTask) (t : GTask)
    (p : TodoistPayload) (ht : t ∈ tasks) (hp : transform t = some p) :
    ((∃ b, Event.deleteCall t.id b ∈ (processTask env t).1) ↔
      env.fetchResult p = some 200) ∧
    (∀ ts1 ts2, tasks = ts1 ++ t :: ts2 →
      syncEvents env tasks =
        syncEvents env ts1 ++ ((processTask env t).1 ++ syncEvents env ts2)) ∧
    (env.fetchResult p ≠ some 200 →
      (processTask env t).1 = [Event.create p false] ∧
      (processTask env t).2 = false ∧
      t ∈ syncRemaining env tasks ∧
      Event.create p false ∈ syncEvents env (syncRemaining env tasks)) := by
  refine ⟨?_, ?_, ?_⟩
  · by_cases hc : createTodoistTask_ env p = true
    · have h200 : env.fetchResult p = some 200 := (createTodoistTask_eq_true_iff env p).mp hc
      simp only [processTask, hp, hc, if_true]
      exact ⟨fun _ => h200, fun _ => ⟨env.deleteOk t.id, by simp⟩⟩
    · have h200 : ¬ env.fetchResult p = some 200 :=
        fun h => hc ((createTodoistTask_eq_true_iff env p).mpr h)
      simp only [processTask, hp, hc, if_false]
      constructor
      · rintro ⟨b, hb⟩
        simp at hb
      · intro h
        exact absurd h h200
  · intro ts1 ts2 hsplit
    subst hsplit
    rw [syncEvents_append]
    rfl
  · intro hne
    have hc : createTodoistTask_ env p ≠ true :=
      fun h => hne ((createTodoistTask_eq_true_iff env p).mp h)
    have hev : (processTask env t).1 = [Event.create p false] := by
      simp [processTask, hp, hc]
    have hdel : (processTask env t).2 = false := by
      simp [processTask, hp, hc]
    have hmem : t ∈ syncRemaining env tasks := mem_syncRemaining env tasks t ht hdel
    refine ⟨hev, hdel, hmem, ?_⟩
    exact create_mem_syncEvents env (syncRemaining env tasks) t hmem _ (by rw [hev]; simp)

/-- C1 witness: in an environment where every creation call returns
HTTP 403, the statement holds for the one task of the batch. -/
theorem sync_delete_iff_created_witness :
    (wTask1 ∈ [wTask1]) ∧ (transform wTask1 = some wPayload1) ∧
    (((∃ b, Event.deleteCall wTask1.id b ∈ (processTask wEnvFail wTask1).1) ↔
       wEnvFail.fetchResult wPayload1 = some 200) ∧
     (∀ ts1 ts2, [wTask1] = ts1 ++ wTask1 :: ts2 →
       syncEvents wEnvFail [wTask1] =
         syncEvents wEnvFail ts1 ++ ((processTask wEnvFail wTask1).1 ++ syncEvents wEnvFail ts2)) ∧
     (wEnvFail.fetchResult wPayload1 ≠ some 200 →
       (processTask wEnvFail wTask1).1 = [Event.create wPayload1 false] ∧
       (processTask wEnvFail wTask1).2 = false ∧
       wTask1 ∈ syncRemaining wEnvFail [wTask1] ∧
       Event.create wPayload1 false ∈ syncEvents wEnvFail (syncRemaining wEnvFail [wTask1]))) :=
  ⟨by decide, by decide,
   sync_delete_iff_created wEnvFail [wTask1] wTask1 wPayload1 (by decide) (by decide)⟩

/-- C4: a source task whose title is absent or empty produces no
destination payload, issues no creation call and no deletion call, and is
left in the source list. -/
theorem sync_skip_untitled (env : SyncEnv) (tasks : List GTask) (t : GTask)
    (h : t.title = none ∨ t.title = some "") :
    transform t = none ∧ processTask env t = ([], false) ∧
    (t ∈ tasks → t ∈ syncRemaining env tasks) := by
  have htv : titleValue t = none := by
    rcases h with h | h <;> simp [titleValue, h]
  have ht : transform t = none := by simp [transform, htv]
  refine ⟨ht, by simp [processTask, ht], ?_⟩
  intro hmem
  exact mem_syncRemaining env tasks t hmem (by simp [processTask, ht])

/-- C4 witness: the statement holds for a task with an empty title. -/
theorem sync_skip_untitled_witness :
    (wTaskUntitled.title = none ∨ wTaskUntitled.title = some "") ∧
    (transform wTaskUntitled = none ∧ processTask wEnvFail wTaskUntitled = ([], false) ∧
     (wTaskUntitled ∈ [wTaskUntitled] → wTaskUntitled ∈ syncRemaining wEnvFail [wTaskUntitled])) :=
  ⟨by decide, sync_skip_untitled wEnvFail [wTaskUntitled] wTaskUntitled (by decide)⟩

/-- C3 counterexample: for the task with whitespace-only notes " " and one
email link whose URL "u " ends in a space, the transform produces the
description "---\nLinked Email: u"; it does not end with
"Linked Email: " followed by the URL, and the annotation is not preceded
by the literal separator "\n\n---\n" (which does not even occur in the
description), because the final trim removes the leading whitespace of the
notes together with the leading newlines of the separator and the trailing
whitespace of the URL. -/
theorem sync_email_annotation_counterexample :
    (transform { id := "1", title := some "T", notes := some " "
               , links := some [{ type := "email", link := "u " }], due := none }).map
        (fun p => p.description) = some "---\nLinked Email: u" ∧
    ¬ (("Linked Email: " ++ "u " : String).data <:+ ("---\nLinked Email: u" : String).data) ∧
    ¬ (("\n\n---\n" : String).data <:+: ("---\nLinked Email: u" : String).data) := by
  refine ⟨by decide, by decide, by decide⟩

/-- C3 (amended): for every source task with at least one email-type link,
provided the first email link URL is non-empty and does not end in a
character of the JavaScript whitespace set, and the notes (defaulted to
the empty string) are either empty or contain a character outside the
JavaScript whitespace set, the destination description is the trimmed
built description and ends with "Linked Email: " followed by that URL
(later email links ignored); when the notes are non-empty the annotation
is preceded by the literal separator "\n\n---\n". -/
theorem sync_email_annotation (t : GTask) (ls : List GLink) (l : GLink) (p : TodoistPayload)
    (hls : t.links = some ls)
    (hfind : ls.find? (fun x => x.type == "email") = some l)
    (hurl : ∃ u c, l.link.data = u ++ [c] ∧ jsWhitespace c = false)
    (hnotes : notesOf t = "" ∨ (notesOf t).data.any (fun x => !jsWhitespace x) = true)
    (hp : transform t = some p) :
    p.description = jsTrim (buildDescription t) ∧
    (∃ pre : String, p.description = pre ++ ("Linked Email: " ++ l.link)) ∧
    (notesOf t ≠ "" →
      ∃ pre : String, p.description = pre ++ ("\n\n---\n" ++ ("Linked Email: " ++ l.link))) := by
  obtain ⟨u, c, hu, hc⟩ := hurl
  have hdesc : p.description = jsTrim (buildDescription t) := by
    unfold transform at hp
    cases htv : titleValue t with
    | none => rw [htv] at hp; cases hp
    | some title =>
      rw [htv] at hp
      cases hp
      rfl
  by_cases hn0 : notesOf t = ""
  · have hbd : buildDescription t = "Linked Email: " ++ l.link := by
      unfold buildDescription
      simp only [hls, hfind]
      rw [if_pos hn0]
      rfl
    have htrim : jsTrim (buildDescription t) = "Linked Email: " ++ l.link := by
      rw [hbd]
      exact jsTrim_linked l.link u c hu hc
    refine ⟨hdesc, ⟨"", ?_⟩, fun hn => absurd hn0 hn⟩
    rw [hdesc, htrim]
    rfl
  · have hany : (notesOf t).data.any (fun x => !jsWhitespace x) = true := by
      rcases hnotes with h | h
      · exact absurd h hn0
      · exact h
    have hbd : buildDescription t = (notesOf t ++ "\n\n---\n") ++ ("Linked Email: " ++ l.link) := by
      unfold buildDescription
      simp only [hls, hfind]
      rw [if_neg hn0]
    have htrim : jsTrim (buildDescription t) =
        (⟨(notesOf t).data.dropWhile jsWhitespace⟩ : String) ++
          ("\n\n---\n" ++ ("Linked Email: " ++ l.link)) := by
      rw [hbd]
      exact jsTrim_notes_linked (notesOf t) l.link u c hu hc hany
    have hassoc :
        (⟨(notesOf t).data.dropWhile jsWhitespace⟩ : String) ++
            ("\n\n---\n" ++ ("Linked Email: " ++ l.link)) =
          ((⟨(notesOf t).data.dropWhile jsWhitespace⟩ : String) ++ "\n\n---\n") ++
            ("Linked Email: " ++ l.link) := by
      apply congrArg String.mk
      simp [List.append_assoc]
    refine ⟨hdesc, ⟨(⟨(notesOf t).data.dropWhile jsWhitespace⟩ : String) ++ "\n\n---\n", ?_⟩,
      fun _ => ⟨⟨(notesOf t).data.dropWhile jsWhitespace⟩, ?_⟩⟩
    · rw [hdesc, htrim, hassoc]
    · rw [hdesc, htrim]

/-- C3 witness: the amended statement holds at the scenario input of the
specification. -/
theorem sync_email_annotation_witness :
    (wTask3.links = some [{ type := "email", link := "https://mail.example/x" }]) ∧
    (([({ type := "email", link := "https://mail.example/x" } : GLink)]).find?
        (fun x => x.type == "email") =
      some { type := "email", link := "https://mail.example/x" }) ∧
    (∃ u c, ("https://mail.example/x" : String).data = u ++ [c] ∧ jsWhitespace c = false) ∧
    (notesOf wTask3 = "" ∨ (notesOf wTask3).data.any (fun x => !jsWhitespace x) = true) ∧
    (transform wTask3 = some wPayload3) ∧
    (wPayload3.description = jsTrim (buildDescription wTask3) ∧
     (∃ pre : String, wPayload3.description =
        pre ++ ("Linked Email: " ++ ("https://mail.example/x" : String))) ∧
     (notesOf wTask3 ≠ "" →
       ∃ pre : String, wPayload3.description =
         pre ++ ("\n\n---\n" ++ ("Linked Email: " ++ ("https://mail.example/x" : String))))) :=
  ⟨rfl, by decide, ⟨("https://mail.example/" : String).data, 'x', by decide, by decide⟩,
   by decide, by decide,
   sync_email_annotation wTask3 [{ type := "email", link := "https://mail.example/x" }]
     { type := "email", link := "https://mail.example/x" } wPayload3 rfl (by decide)
     ⟨("https://mail.example/" : String).data, 'x', by decide, by decide⟩ (by decide) (by decide)⟩

/-- C6: for a processed source task, when the due value is present and has
length at least ten, the payload due_date is exactly the first ten
characters of that value; when the due value is absent, no due_date is
attached. -/
theorem sync_due_truncation (t : GTask) (ti : String) (h : titleValue t = some ti) :
    ∃ p, transform t = some p ∧
      (∀ d, t.due = some d → 10 ≤ d.length → p.due_date = some (jsSubstring10 d)) ∧
      (t.due = none → p.due_date = none) := by
  refine ⟨{ content := ti
          , description := jsTrim (buildDescription t)
          , due_date :=
              match t.due with
              | none => none
              | some d => if d = "" then none else some (jsSubstring10 d) }, ?_, ?_, ?_⟩
  · simp [transform, h]
  · intro d hd hlen
    have hne : d ≠ "" := by
      intro h0
      subst h0
      exact absurd hlen (by decide)
    simp [hd, hne]
  · intro hd
    simp [hd]

/-- C6 witness: the statement holds for the scenario task, whose due value
"2024-05-01T00:00:00Z" truncates to "2024-05-01", and for the minimal task
without a due value. -/
theorem sync_due_truncation_witness :
    (titleValue wTask3 = some "Call Bob") ∧
    (∃ p, transform wTask3 = some p ∧
      (∀ d, wTask3.due = some d → 10 ≤ d.length → p.due_date = some (jsSubstring10 d)) ∧
      (wTask3.due = none → p.due_date = none)) ∧
    (titleValue wTask1 = some "A") ∧
    (∃ p, transform wTask1 = some p ∧
      (∀ d, wTask1.due = some d → 10 ≤ d.length → p.due_date = some (jsSubstring10 d)) ∧
      (wTask1.due = none → p.due_date = none)) :=
  ⟨by decide, sync_due_truncation wTask3 "Call Bob" (by decide),
   by decide, sync_due_truncation wTask1 "A" (by decide)⟩

/-- C7: cleanup deletion failures are logged and non-fatal.  In the Report
Pipeline, a failing cleanup of the previous day report yields a cleanup
action recorded as failed while the remainder of the run is identical to a
run whose cleanup succeeds; in the Sync Pipeline, a failing source
deletion after a successful creation is recorded in the events of that
task alone, and every other task of the batch is still attempted. -/
theorem cleanup_failures_nonfatal :
    (∀ env : ReportEnv, env.tokenSet = true → env.folderSet = true →
      (createTodoistReport { env with cleanupFails := true }).head? =
        some (RAction.cleanup (reportPdfName env.yesterday) CleanupResult.failed) ∧
      (createTodoistReport { env with cleanupFails := true }).tail =
        (createTodoistReport { env with cleanupFails := false }).tail ∧
      (env.tasks ≠ [] →
        RAction.createSheet (reportName env.today) ∈
          createTodoistReport { env with cleanupFails := true })) ∧
    (∀ (env : SyncEnv) (t : GTask) (p : TodoistPayload) (ts1 ts2 : List GTask),
      transform t = some p → createTodoistTask_ env p = true → env.deleteOk t.id = false →
      (processTask env t).1 = [Event.create p true, Event.deleteCall t.id false] ∧
      syncEvents env (ts1 ++ t :: ts2) =
        syncEvents env ts1 ++ ((processTask env t).1 ++ syncEvents env ts2) ∧
      (∀ u q, u ∈ ts2 → transform u = some q →
        Event.create q (createTodoistTask_ env q) ∈ syncEvents env (ts1 ++ t :: ts2))) := by
  constructor
  · intro env h1 h2
    refine ⟨?_, ?_, ?_⟩
    · simp [createTodoistReport, deleteYesterdaysReport, h1, h2]
    · simp [createTodoistReport, deleteYesterdaysReport, h1, h2]
    · intro htasks
      have hg : getUncompletedTasksByProject env.projects env.tasks ≠ [] :=
        fun hnil => htasks ((group_eq_nil_iff env.projects env.tasks).mp hnil)
      simp only [createTodoistReport, h1, h2, Bool.and_self, if_true]
      by_cases he : env.exportFails = true <;> simp [hg, he]
  · intro env t p ts1 ts2 hp hcreate hdel
    have hev : (processTask env t).1 = [Event.create p true, Event.deleteCall t.id false] := by
      simp [processTask, hp, hcreate, hdel]
    refine ⟨hev, ?_, ?_⟩
    · rw [syncEvents_append]
      rfl
    · intro u q hu hq
      exact create_mem_syncEvents env (ts1 ++ t :: ts2) u
        (List.mem_append.mpr (Or.inr (List.mem_cons.mpr (Or.inr hu))))
        _ (create_event_of_transform env u q hq)

/-- C7 witness: the statement instantiated at a configured report
environment and at a sync environment in which creation succeeds and
deletion fails. -/
theorem cleanup_failures_nonfatal_witness :
    (wREnv.tokenSet = true) ∧ (wREnv.folderSet = true) ∧
    (transform wTask1 = some wPayload1) ∧
    (createTodoistTask_ wEnvDelFail wPayload1 = true) ∧
    (wEnvDelFail.deleteOk wTask1.id = false) ∧
    ((createTodoistReport { wREnv with cleanupFails := true }).head? =
        some (RAction.cleanup (reportPdfName wREnv.yesterday) CleanupResult.failed) ∧
      (createTodoistReport { wREnv with cleanupFails := true }).tail =
        (createTodoistReport { wREnv with cleanupFails := false }).tail ∧
      (wREnv.tasks ≠ [] →
        RAction.createSheet (reportName wREnv.today) ∈
          createTodoistReport { wREnv with cleanupFails := true })) ∧
    ((processTask wEnvDelFail wTask1).1 =
        [Event.create wPayload1 true, Event.deleteCall wTask1.id false] ∧
      syncEvents wEnvDelFail ([] ++ wTask1 :: []) =
        syncEvents wEnvDelFail [] ++
          ((processTask wEnvDelFail wTask1).1 ++ syncEvents wEnvDelFail []) ∧
      (∀ u q, u ∈ ([] : List GTask) → transform u = some q →
        Event.create q (createTodoistTask_ wEnvDelFail q) ∈
          syncEvents wEnvDelFail ([] ++ wTask1 :: []))) :=
  ⟨rfl, rfl, by decide, by decide, by decide,
   cleanup_failures_nonfatal.1 wREnv rfl rfl,
   cleanup_failures_nonfatal.2 wEnvDelFail wTask1 wPayload1 [] [] (by decide) (by decide)
     (by decide)⟩

/-- C8: the grouping result is empty exactly when the fetched task list is
empty, and in that case the Report Lifecycle Controller aborts before any
action that creates a spreadsheet document or an output file. -/
theorem report_abort_on_empty (env : ReportEnv) :
    (getUncompletedTasksByProject env.projects env.tasks = [] ↔ env.tasks = []) ∧
    (env.tasks = [] → ∀ a ∈ createTodoistReport env, createsOutput a = false) := by
  refine ⟨group_eq_nil_iff env.projects env.tasks, ?_⟩
  intro h a ha
  have hg : getUncompletedTasksByProject env.projects env.tasks = [] :=
    (group_eq_nil_iff env.projects env.tasks).mpr h
  by_cases hc : (env.tokenSet && env.folderSet) = true
  · simp only [createTodoistReport, hc, if_true, hg, List.mem_singleton] at ha
    subst ha
    rfl
  · simp [createTodoistReport, hc] at ha

/-- C8 witness: with no fetched tasks, the run of the configured report
environment contains no document or file creation. -/
theorem report_abort_on_empty_witness :
    (wREnvEmpty.tasks = []) ∧
    (getUncompletedTasksByProject wREnvEmpty.projects wREnvEmpty.tasks = [] ↔
      wREnvEmpty.tasks = []) ∧
    (∀ a ∈ createTodoistReport wREnvEmpty, createsOutput a = false) :=
  ⟨rfl, (report_abort_on_empty wREnvEmpty).1, (report_abort_on_empty wREnvEmpty).2 rfl⟩

/-- C9: the report document of the current run is named
"Todoist Report - {M}-{D}-{YYYY}" from the current date with no zero
padding, the exported file appends ".pdf" to it, the pre-run cleanup looks
up the file derived by the identical naming rule from the date of the
previous day, and absence of that file is benign: the cleanup outcome is
recorded as missing and the remainder of the run is identical to a run in
which the file exists. -/
theorem report_naming (env : ReportEnv) (h1 : env.tokenSet = true) (h2 : env.folderSet = true) :
    (createTodoistReport env).head? =
      some (RAction.cleanup (reportName env.yesterday ++ ".pdf")
        (if env.cleanupFails then CleanupResult.failed
         else if env.yesterdayExists then CleanupResult.trashed
         else CleanupResult.missing)) ∧
    (∀ d, reportPdfName d = reportName d ++ ".pdf") ∧
    (env.tasks ≠ [] → RAction.createSheet (reportName env.today) ∈ createTodoistReport env) ∧
    (env.tasks ≠ [] → env.exportFails = false →
      RAction.createPdf (reportName env.today ++ ".pdf") ∈ createTodoistReport env) ∧
    formatDate { month := 3, day := 7, year := 2026 } = "3-7-2026" ∧
    reportName { month := 12, day := 31, year := 2025 } = "Todoist Report - 12-31-2025" ∧
    (env.cleanupFails = false → env.yesterdayExists = false →
      (createTodoistReport env).head? =
        some (RAction.cleanup (reportPdfName env.yesterday) CleanupResult.missing) ∧
      (createTodoistReport env).tail =
        (createTodoistReport { env with yesterdayExists := true }).tail) := by
  refine ⟨?_, fun d => rfl, ?_, ?_, by decide, by decide, ?_⟩
  · simp [createTodoistReport, deleteYesterdaysReport, h1, h2, reportPdfName]
  · intro htasks
    have hg : getUncompletedTasksByProject env.projects env.tasks ≠ [] :=
      fun hnil => htasks ((group_eq_nil_iff env.projects env.tasks).mp hnil)
    simp only [createTodoistReport, h1, h2, Bool.and_self, if_true]
    by_cases he : env.exportFails = true <;> simp [hg, he]
  · intro htasks hexp
    have hg : getUncompletedTasksByProject env.projects env.tasks ≠ [] :=
      fun hnil => htasks ((group_eq_nil_iff env.projects env.tasks).mp hnil)
    simp [createTodoistReport, h1, h2, hg, hexp]
  · intro hcf hye
    constructor
    · simp [createTodoistReport, deleteYesterdaysReport, h1, h2, hcf, hye]
    · simp [createTodoistReport, h1, h2]

/-- C9 witness: the statement instantiated at the configured report
environment. -/
theorem report_naming_witness :
    (wREnv.tokenSet = true) ∧ (wREnv.folderSet = true) ∧
    ((createTodoistReport wREnv).head? =
      some (RAction.cleanup (reportName wREnv.yesterday ++ ".pdf")
        (if wREnv.cleanupFails then CleanupResult.failed
         else if wREnv.yesterdayExists then CleanupResult.trashed
         else CleanupResult.missing)) ∧
    (∀ d, reportPdfName d = reportName d ++ ".pdf") ∧
    (wREnv.tasks ≠ [] → RAction.createSheet (reportName wREnv.today) ∈ createTodoistReport wREnv) ∧
    (wREnv.tasks ≠ [] → wREnv.exportFails = false →
      RAction.createPdf (reportName wREnv.today ++ ".pdf") ∈ createTodoistReport wREnv) ∧
    formatDate { month := 3, day := 7, year := 2026 } = "3-7-2026" ∧
    reportName { month := 12, day := 31, year := 2025 } = "Todoist Report - 12-31-2025" ∧
    (wREnv.cleanupFails = false → wREnv.yesterdayExists = false →
      (createTodoistReport wREnv).head? =
        some (RAction.cleanup (reportPdfName wREnv.yesterday) CleanupResult.missing) ∧
      (createTodoistReport wREnv).tail =
        (createTodoistReport { wREnv with yesterdayExists := true }).tail)) :=
  ⟨rfl, rfl, report_naming wREnv rfl rfl⟩

/-- C10: when the listing of the task lists of the user throws, the lookup
helper returns null, the same result as when no list bears the configured
name, and the sync aborts with no external call at all: a listing failure
is externally indistinguishable from a lookup miss. -/
theorem listing_throw_like_miss (env : SyncEnv) (name : String)
    (h : env.listing = ListingResult.threw) :
    getTaskListIdByName_ env name = none ∧
    (∀ items : List GTaskList, (∀ l ∈ items, l.title ≠ name) →
      getTaskListIdByName_ { env with listing := ListingResult.ok (some items) } name = none) ∧
    syncGoogleTasksToTodoist env = [] := by
  refine ⟨by simp [getTaskListIdByName_, h], ?_, ?_⟩
  · intro items hitems
    have hfind : items.find? (fun l => l.title == name) = none :=
      List.find?_eq_none.mpr (fun l hl => by simp [hitems l hl])
    simp [getTaskListIdByName_, hfind]
  · have hnone : getTaskListIdByName_ env env.listName = none := by
      simp [getTaskListIdByName_, h]
    unfold syncGoogleTasksToTodoist
    rw [hnone]
    by_cases hc : (env.tokenSet && env.listNameSet) = true <;> simp [hc]

/-- C10 witness: the statement instantiated at a sync environment whose
listing call throws. -/
theorem listing_throw_like_miss_witness :
    (wEnvThrew.listing = ListingResult.threw) ∧
    (getTaskListIdByName_ wEnvThrew "L" = none ∧
     (∀ items : List GTaskList, (∀ l ∈ items, l.title ≠ "L") →
       getTaskListIdByName_ { wEnvThrew with listing := ListingResult.ok (some items) } "L" =
         none) ∧
     syncGoogleTasksToTodoist wEnvThrew = []) :=
  ⟨rfl, listing_throw_like_miss wEnvThrew "L" rfl⟩
